import Mathlib

/-!
# ClipTray core — shallow embedding and verification

This file embeds the macro-step data model, the step-sequence editing
operations of the macro builder, the macro injection engine, the
click-to-paste wait state, the caret-locator fallback chain, and the
clip dispatcher of the ClipTray application, and proves (or refutes)
the specified properties about them.

Sources embedded:
* `src/clip_manager.py` — `TextStep`, `ActionStep`, `step_from_dict`, `Clip`
* `src/macro_builder.py` — `MacroBuilder._on_add_text_clicked`,
  `_on_action_captured`, `_on_remove_step` (with its inline
  adjacent-text-merging loop)
* `src/main.py` — `execute_macro` (called `execute_steps` here, the
  spec's name for it), the click-to-paste wait state
  (`_on_wait_and_type_clip`, `_on_wait_and_execute_macro`,
  `_on_global_click`)
* `src/caret_companion.py` — `get_caret_screen_pos`
* `src/overlay.py` — `OverlayWindow._on_clip_clicked`
-/

namespace ClipTray

/-! ## Step model (`src/clip_manager.py`)

Python has two dataclasses `TextStep {value}` and `ActionStep {keys, label}`
used as a closed tagged union (the `type` field is always the dataclass
default `"text"` / `"action"`); we embed them as one inductive. -/

inductive Step where
  | TextStep (value : String)
  | ActionStep (keys : List String) (label : String)
deriving DecidableEq, Repr

/-- A serialized step record: the Python `dict` produced by `to_dict` and
consumed by `step_from_dict`.  Each field is optional because `dict.get`
is used with defaults on the Python side. -/
structure StepRecord where
  type : Option String
  value : Option String
  keys : Option (List String)
  label : Option String
deriving DecidableEq

/-- `TextStep.to_dict` / `ActionStep.to_dict` from `src/clip_manager.py`. -/
def Step.to_dict : Step → StepRecord
  | .TextStep v => ⟨some "text", some v, none, none⟩
  | .ActionStep ks l => ⟨some "action", none, some ks, some l⟩

/-- `TextStep.from_dict` (`src/clip_manager.py` line 27): reads only
`d.get("value", "")`. -/
def TextStep.from_dict (d : StepRecord) : Step :=
  .TextStep (d.value.getD "")

/-- `ActionStep.from_dict` (`src/clip_manager.py` line 42): reads
`d.get("keys", [])` and `d.get("label", "")`. -/
def ActionStep.from_dict (d : StepRecord) : Step :=
  .ActionStep (d.keys.getD []) (d.label.getD "")

/-- `step_from_dict` (`src/clip_manager.py` line 46): dispatch on the
`type` discriminator; anything other than `"action"` (including a
missing or unknown discriminator) falls through to `TextStep.from_dict`. -/
def step_from_dict (d : StepRecord) : Step :=
  if d.type = some "action" then ActionStep.from_dict d
  else TextStep.from_dict d

/-! ## Adjacent-text merging (`MacroBuilder._on_remove_step`,
`src/macro_builder.py` lines 390–397)

```python
merged = []
for step in self.steps:
    if merged and isinstance(merged[-1], TextStep) and isinstance(step, TextStep):
        merged[-1].value += step.value
    else:
        merged.append(step)
self.steps = merged
```
-/

/-- One iteration of the merging loop body: `merged[-1]` is
`merged.getLast?`; mutating it is dropping the last element and
appending the concatenation. -/
def mergeStep (merged : List Step) (step : Step) : List Step :=
  match merged.getLast?, step with
  | some (.TextStep v), .TextStep w => merged.dropLast ++ [.TextStep (v ++ w)]
  | _, _ => merged ++ [step]

/-- The whole merging loop, starting from `merged = []`.  The spec names
this operation `merge_adjacent_text`. -/
def merge_adjacent_text (steps : List Step) : List Step :=
  steps.foldl mergeStep []

/-- Whether a step is a `TextStep` (Python `isinstance(step, TextStep)`). -/
def Step.isText : Step → Bool
  | .TextStep _ => true
  | .ActionStep _ _ => false

/-- No two adjacent elements are both `TextStep`s. -/
def noAdjText : List Step → Bool
  | a :: b :: rest => !(a.isText && b.isText) && noAdjText (b :: rest)
  | _ => true

/-- Whether the first element of the list is a `TextStep`. -/
def headIsText : List Step → Bool
  | [] => false
  | s :: _ => s.isText

/-- Whether the last element of the list is a `TextStep`. -/
def lastIsText (l : List Step) : Bool :=
  (l.getLast?).elim false Step.isText

/-! ## Macro-builder edit operations (`src/macro_builder.py`) -/

/-- `MacroBuilder._on_add_text_clicked` (lines 363–370):
`self.steps.append(TextStep(value=""))`. -/
def on_add_text_clicked (steps : List Step) : List Step :=
  steps ++ [Step.TextStep ""]

/-- Python `list.insert(idx, s)` for a nonnegative index: inserts before
position `idx`, clamping an out-of-range index to an append. -/
def list_insert (l : List Step) (idx : Nat) (s : Step) : List Step :=
  l.take idx ++ s :: l.drop idx

/-- `MacroBuilder._on_action_captured` (lines 372–380):
`self.steps.insert(self._capture_insert_index, action)`.  (The capture
index is set by `_on_add_action_clicked` to `len(self.steps)`, but the
handler works for any nonnegative index.) -/
def on_action_captured (steps : List Step) (idx : Nat) (action : Step) :
    List Step :=
  list_insert steps idx action

/-- `MacroBuilder._on_remove_step` (lines 385–402): pop the step at
`index` when in range, merge adjacent text steps, and collapse an empty
result to a single empty `TextStep`. -/
def on_remove_step (steps : List Step) (index : Nat) : List Step :=
  if index < steps.length then
    let merged := merge_adjacent_text (steps.eraseIdx index)
    if merged = [] then [Step.TextStep ""] else merged
  else steps

/-! ## Injection engine (`execute_macro`, `src/main.py` lines 135–165)

The engine's externally visible effects are clipboard reads/writes, key
synthesis, and the scheduled clipboard restoration; we record them as a
trace.  Failure of the initial `pyperclip.paste()` is caught by the
code; failure of a per-step `pyperclip.copy` is *not* caught, which the
model renders as `none` (an exception escaping the function). -/

inductive ClipEvent where
  | pasteRead
  | copy (s : String)
  | hotkey (keys : List String)
  | scheduleRestore (old : String)
deriving DecidableEq, Repr

/-- Environment for one modelled run of the injection engine: whether
the initial `pyperclip.paste()` succeeds, what it returns, and whether
the `pyperclip.copy` issued while processing step `i` succeeds. -/
structure ClipEnv where
  readOk : Bool
  clipContent : String
  copyOk : Nat → Bool

/-- The `for i, step in enumerate(steps)` loop of `execute_macro`
(`src/main.py` lines 149–162): a `TextStep` with truthy (nonempty)
`value` copies it to the clipboard and synthesizes Ctrl+V; an
`ActionStep` with truthy (nonempty) `keys` synthesizes the combination;
all other steps are skipped.  The fixed `time.sleep` delays between
events are not modelled.  `none` models the uncaught exception raised
by a failing `pyperclip.copy`. -/
def execLoop (env : ClipEnv) : List Step → Nat → Option (List ClipEvent)
  | [], _ => some []
  | Step.TextStep v :: rest, i =>
    if v ≠ "" then
      if env.copyOk i then
        (execLoop env rest (i + 1)).map
          (fun t => ClipEvent.copy v :: ClipEvent.hotkey ["ctrl", "v"] :: t)
      else none
    else execLoop env rest (i + 1)
  | Step.ActionStep ks _ :: rest, i =>
    if ks ≠ [] then
      (execLoop env rest (i + 1)).map (fun t => ClipEvent.hotkey ks :: t)
    else execLoop env rest (i + 1)

/-- `execute_macro(steps)` from `src/main.py` (the spec's
`execute_steps`): read the clipboard once at the start (a failed read
is caught and degrades to `""`), run the step loop, then schedule a
single restoration of the saved contents after a fixed delay. -/
def execute_steps (env : ClipEnv) (steps : List Step) :
    Option (List ClipEvent) :=
  let old := if env.readOk then env.clipContent else ""
  (execLoop env steps 0).map
    (fun t => ClipEvent.pasteRead :: t ++ [ClipEvent.scheduleRestore old])

/-- Is this event the clipboard save (`pyperclip.paste` at the start)? -/
def isSave : ClipEvent → Bool
  | .pasteRead => true
  | _ => false

/-- Is this event the scheduled clipboard restoration? -/
def isRestore : ClipEvent → Bool
  | .scheduleRestore _ => true
  | _ => false

/-! ## Click-to-paste wait state (`ClipTrayApp`, `src/main.py`) -/

/-- The two pending-payload fields of `ClipTrayApp`: `_waiting_text`
(a string or `None`) and the waiting macro clip (modelled by its step
list, which is all `_on_global_click` uses of it). -/
structure WaitState where
  waiting_text : Option String
  waiting_steps : Option (List Step)
deriving DecidableEq

/-- A payload selected while click-to-paste mode is enabled. -/
inductive Payload where
  | textPayload (t : String)
  | stepsPayload (steps : List Step)
deriving DecidableEq

/-- A call into the injection engine. -/
inductive Injection where
  | typeText (t : String)
  | execSteps (steps : List Step)
deriving DecidableEq

/-- `ClipTrayApp._on_wait_and_type_clip` (`src/main.py` lines 352–357):
set `_waiting_text`, clear the waiting macro. -/
def on_wait_and_type_clip (_st : WaitState) (text : String) : WaitState :=
  ⟨some text, none⟩

/-- `ClipTrayApp._on_wait_and_execute_macro` (lines 364–369): clear
`_waiting_text`, set the waiting macro. -/
def on_wait_and_run_steps (_st : WaitState) (steps : List Step) : WaitState :=
  ⟨none, some steps⟩

/-- Arming the wait state with a payload (the two handlers above). -/
def arm (st : WaitState) : Payload → WaitState
  | .textPayload t => on_wait_and_type_clip st t
  | .stepsPayload s => on_wait_and_run_steps st s

/-- `ClipTrayApp._on_global_click` (lines 418–432): consume the pending
payload, macro branch first.  Python truthiness: the waiting macro is a
clip object and always truthy, but `_waiting_text` is falsy when it is
the empty string, in which case neither branch fires (and the empty
string is not cleared). -/
def on_global_click (st : WaitState) : WaitState × Option Injection :=
  match st.waiting_steps with
  | some steps => (⟨none, none⟩, some (.execSteps steps))
  | none =>
    match st.waiting_text with
    | some t =>
      if t ≠ "" then (⟨none, none⟩, some (.typeText t))
      else (st, none)
    | none => (st, none)

/-- The pending payload of a wait state, macro first (matching the
consumption order of `_on_global_click`). -/
def armedPayload (st : WaitState) : Option Payload :=
  match st.waiting_steps with
  | some s => some (.stepsPayload s)
  | none => st.waiting_text.map Payload.textPayload

/-- The injection a click fires for a given pending payload (an empty
text payload is falsy and fires nothing). -/
def injectionOf : Payload → Option Injection
  | .textPayload t => if t ≠ "" then some (.typeText t) else none
  | .stepsPayload s => some (.execSteps s)

/-! ## Caret locator (`get_caret_screen_pos`,
`src/caret_companion.py` lines 211–233) -/

/-- The results the four probe methods `_get_caret_win32`,
`_get_caret_uia_tp2`, `_get_caret_uia_selection` and
`_get_caret_fallback` would return (each a screen position or `None`;
every internal probe failure already degrades to `None` inside the
method). -/
structure CaretProbes where
  m1 : Option (Int × Int)
  m2 : Option (Int × Int)
  m3 : Option (Int × Int)
  m4 : Option (Int × Int)

/-- `get_caret_screen_pos`: try each method in order and return the
first hit, `none` if all four miss.  The second component records which
methods were invoked, in order, instrumenting the sequential
short-circuiting control flow (a tuple result is always truthy in
Python, so `if pos:` is exactly `pos is not None`). -/
def get_caret_screen_pos (p : CaretProbes) : Option (Int × Int) × List Nat :=
  match p.m1 with
  | some pos => (some pos, [1])
  | none =>
    match p.m2 with
    | some pos => (some pos, [1, 2])
    | none =>
      match p.m3 with
      | some pos => (some pos, [1, 2, 3])
      | none =>
        match p.m4 with
        | some pos => (some pos, [1, 2, 3, 4])
        | none => (none, [1, 2, 3, 4])

/-! ## Dispatcher (`OverlayWindow._on_clip_clicked`, `src/overlay.py`
lines 270–286, plus the connected `ClipTrayApp` handlers) -/

/-- The `Clip` fields the dispatcher reads (`isMacro` embeds the
Python `is_macro` flag). -/
structure Clip where
  text : String
  isMacro : Bool
  steps : List Step
deriving DecidableEq

/-- The four overlay signals a clip click can emit. -/
inductive OverlaySignal where
  | type_clip (text : String)
  | wait_and_type_clip_sig (text : String)
  | run_steps (c : Clip)
  | wait_and_run_steps_sig (c : Clip)
deriving DecidableEq

/-- `OverlayWindow._on_clip_clicked`: which signal is emitted for a
clip under the current click-to-paste setting.  Python truthiness:
`clip.is_macro and clip.steps` requires a *nonempty* step list, so a
macro clip with no steps takes the simple-text branch. -/
def on_clip_clicked (clip : Clip) (click_to_paste : Bool) : OverlaySignal :=
  if clip.isMacro && !clip.steps.isEmpty then
    if click_to_paste then .wait_and_run_steps_sig clip else .run_steps clip
  else
    if click_to_paste then .wait_and_type_clip_sig clip.text
    else .type_clip clip.text

/-- The `ClipTrayApp` handler connected to each overlay signal
(`src/main.py` lines 346–369): the immediate handlers call the
injection engine exactly once (after the fixed 150 ms focus delay, not
modelled); the wait handlers arm the wait state and inject nothing.
Returns the new wait state and the list of injection calls made. -/
def handle_signal (st : WaitState) : OverlaySignal → WaitState × List Injection
  | .type_clip t => (st, [.typeText t])
  | .run_steps c => (st, [.execSteps c.steps])
  | .wait_and_type_clip_sig t => (on_wait_and_type_clip st t, [])
  | .wait_and_run_steps_sig c => (on_wait_and_run_steps st c.steps, [])

/-- `dispatch(clip, click_to_paste)` (spec §4.5): the overlay click
handler composed with the connected application handler. -/
def dispatch (clip : Clip) (click_to_paste : Bool) (st : WaitState) :
    WaitState × List Injection :=
  handle_signal st (on_clip_clicked clip click_to_paste)

/-! ## Lemmas: the adjacency toolkit -/

theorem lastIsText_nil : lastIsText [] = false := rfl

theorem lastIsText_concat (xs : List Step) (a : Step) :
    lastIsText (xs ++ [a]) = a.isText := by
  simp [lastIsText, List.getLast?_concat]

theorem lastIsText_cons_cons (a b : Step) (t : List Step) :
    lastIsText (a :: b :: t) = lastIsText (b :: t) := by
  simp [lastIsText, List.getLast?_cons_cons]

theorem noAdjText_cons (a : Step) (l : List Step) :
    noAdjText (a :: l) = (!(a.isText && headIsText l) && noAdjText l) := by
  cases l <;> simp [noAdjText, headIsText]

/-- Splitting `noAdjText` across an append: both halves must be
adjacency-free and the junction must not be a text/text pair. -/
theorem noAdjText_append (xs ys : List Step) :
    noAdjText (xs ++ ys)
      = (noAdjText xs && noAdjText ys && !(lastIsText xs && headIsText ys)) := by
  induction xs with
  | nil => simp [noAdjText, lastIsText]
  | cons a xs ih =>
    cases xs with
    | nil =>
      cases ys with
      | nil => simp [noAdjText, lastIsText, headIsText]
      | cons b t =>
        simp only [List.singleton_append, noAdjText, noAdjText_cons, headIsText]
        simp [lastIsText, Bool.and_comm]
    | cons b t =>
      simp only [List.cons_append] at ih ⊢
      rw [noAdjText_cons, noAdjText_cons (l := b :: t), ih,
        lastIsText_cons_cons]
      cases b.isText <;> cases a.isText <;>
        simp [headIsText, Bool.and_assoc, Bool.and_comm, Bool.and_left_comm]

theorem noAdjText_concat (xs : List Step) (a : Step) :
    noAdjText (xs ++ [a]) = (noAdjText xs && !(lastIsText xs && a.isText)) := by
  rw [noAdjText_append]
  simp [noAdjText, headIsText]

/-! ## Lemmas: the merging loop -/

theorem mergeStep_nil (s : Step) : mergeStep [] s = [s] := by
  cases s <;> rfl

theorem mergeStep_concat_text_text (xs : List Step) (v w : String) :
    mergeStep (xs ++ [.TextStep v]) (.TextStep w) = xs ++ [.TextStep (v ++ w)] := by
  simp [mergeStep, List.getLast?_concat, List.dropLast_concat]

theorem mergeStep_concat_ne (xs : List Step) (a s : Step)
    (h : (a.isText && s.isText) = false) :
    mergeStep (xs ++ [a]) s = (xs ++ [a]) ++ [s] := by
  cases a with
  | TextStep v =>
    cases s with
    | TextStep w => simp [Step.isText] at h
    | ActionStep ks l => simp [mergeStep, List.getLast?_concat]
  | ActionStep ks l =>
    cases s <;> simp [mergeStep, List.getLast?_concat]

/-- The loop body preserves the no-adjacent-text invariant of the
accumulator. -/
theorem noAdjText_mergeStep (acc : List Step) (s : Step)
    (h : noAdjText acc = true) : noAdjText (mergeStep acc s) = true := by
  rcases List.eq_nil_or_concat' acc with rfl | ⟨xs, a, rfl⟩
  · rw [mergeStep_nil]; cases s <;> rfl
  · by_cases hts : (a.isText && s.isText) = true
    · obtain ⟨v, rfl⟩ : ∃ v, a = Step.TextStep v := by
        cases a with
        | TextStep v => exact ⟨v, rfl⟩
        | ActionStep ks l => simp [Step.isText] at hts
      obtain ⟨w, rfl⟩ : ∃ w, s = Step.TextStep w := by
        cases s with
        | TextStep w => exact ⟨w, rfl⟩
        | ActionStep ks l => simp [Step.isText] at hts
      rw [mergeStep_concat_text_text]
      rw [noAdjText_concat] at h ⊢
      simpa [Step.isText] using h
    · have hts' : (a.isText && s.isText) = false := by
        revert hts; cases a.isText && s.isText <;> simp
      rw [mergeStep_concat_ne xs a s hts']
      rw [noAdjText_concat]
      simp [h, lastIsText_concat, hts']

/-- Folding the loop body over the tail of an already adjacency-free
list just appends it back on. -/
theorem foldl_mergeStep_of_noAdjText (l : List Step) :
    ∀ acc : List Step, noAdjText (acc ++ l) = true →
      l.foldl mergeStep acc = acc ++ l := by
  induction l with
  | nil => intro acc _; simp
  | cons s rest ih =>
    intro acc h
    have hstep : mergeStep acc s = acc ++ [s] := by
      rcases List.eq_nil_or_concat' acc with rfl | ⟨xs, a, rfl⟩
      · rw [mergeStep_nil]; rfl
      · refine mergeStep_concat_ne xs a s ?_
        rw [noAdjText_append] at h
        simp only [lastIsText_concat, headIsText, Bool.and_eq_true,
          Bool.not_eq_true', Bool.and_eq_false_iff] at h
        rcases h.2 with h' | h' <;> simp [h']
    rw [List.foldl_cons, hstep, ih (acc ++ [s]) (by simpa using h)]
    simp

/-- The merging loop always produces an adjacency-free list. -/
theorem noAdjText_merge_adjacent_text (steps : List Step) :
    noAdjText (merge_adjacent_text steps) = true := by
  suffices h : ∀ acc : List Step, noAdjText acc = true →
      noAdjText (steps.foldl mergeStep acc) = true from h [] rfl
  induction steps with
  | nil => intro acc h; simpa using h
  | cons s rest ih =>
    intro acc h
    rw [List.foldl_cons]
    exact ih _ (noAdjText_mergeStep acc s h)

/-- An adjacency-free list is a fixed point of the merging loop. -/
theorem merge_adjacent_text_of_noAdjText (steps : List Step)
    (h : noAdjText steps = true) : merge_adjacent_text steps = steps := by
  unfold merge_adjacent_text
  rw [foldl_mergeStep_of_noAdjText steps [] (by simpa using h)]
  simp

/-! ## Lemmas: edit operations -/

/-- Inserting an `ActionStep` anywhere preserves the no-adjacent-text
property. -/
theorem noAdjText_insert_action (steps : List Step) (idx : Nat)
    (ks : List String) (lab : String) (h : noAdjText steps = true) :
    noAdjText (list_insert steps idx (Step.ActionStep ks lab)) = true := by
  have hsplit := noAdjText_append (steps.take idx) (steps.drop idx)
  rw [List.take_append_drop, h] at hsplit
  have hparts := hsplit.symm
  simp only [Bool.and_eq_true] at hparts
  unfold list_insert
  rw [noAdjText_append, noAdjText_cons]
  simp [Step.isText, headIsText, hparts.1.1, hparts.1.2]

/-- The result of `_on_remove_step` for an in-range index satisfies the
invariant: no adjacent text steps and nonempty. -/
theorem on_remove_step_invariant (steps : List Step) (index : Nat)
    (h : index < steps.length) :
    noAdjText (on_remove_step steps index) = true
      ∧ on_remove_step steps index ≠ [] := by
  unfold on_remove_step
  rw [if_pos h]
  by_cases hm : merge_adjacent_text (steps.eraseIdx index) = []
  · simp [hm, noAdjText]
  · simp only [hm, if_neg hm]
    exact ⟨noAdjText_merge_adjacent_text _, hm⟩

/-! ## Lemmas: injection engine -/

/-- When every per-step copy succeeds, the enumeration index does not
influence the loop's result. -/
theorem execLoop_index_irrel (env : ClipEnv) (h : ∀ i, env.copyOk i = true) :
    ∀ (steps : List Step) (i j : Nat),
      execLoop env steps i = execLoop env steps j := by
  intro steps
  induction steps with
  | nil => intro i j; rfl
  | cons s rest ih =>
    intro i j
    cases s with
    | TextStep v =>
      by_cases hv : v = ""
      · simp [execLoop, hv, ih (i + 1) (j + 1)]
      · simp [execLoop, hv, h, ih (i + 1) (j + 1)]
    | ActionStep ks lab =>
      by_cases hk : ks = [] <;> simp [execLoop, hk, ih (i + 1) (j + 1)]

/-- The loop only reads `copyOk` from the environment. -/
theorem execLoop_congr (e1 e2 : ClipEnv) (h : e1.copyOk = e2.copyOk) :
    ∀ (steps : List Step) (i : Nat),
      execLoop e1 steps i = execLoop e2 steps i := by
  intro steps
  induction steps with
  | nil => intro i; rfl
  | cons s rest ih =>
    intro i
    cases s with
    | TextStep v => simp [execLoop, h, ih (i + 1)]
    | ActionStep ks lab => simp [execLoop, ih (i + 1)]

/-- When every per-step copy succeeds, the loop returns a trace with no
clipboard save and no scheduled restoration. -/
theorem execLoop_ok (env : ClipEnv) (h : ∀ i, env.copyOk i = true) :
    ∀ (steps : List Step) (i : Nat), ∃ t, execLoop env steps i = some t
      ∧ t.countP isSave = 0 ∧ t.countP isRestore = 0 := by
  intro steps
  induction steps with
  | nil => intro i; exact ⟨[], rfl, rfl, rfl⟩
  | cons s rest ih =>
    intro i
    obtain ⟨t, ht, hs, hr⟩ := ih (i + 1)
    cases s with
    | TextStep v =>
      by_cases hv : v = ""
      · exact ⟨t, by simp [execLoop, hv, ht], hs, hr⟩
      · refine ⟨ClipEvent.copy v :: ClipEvent.hotkey ["ctrl", "v"] :: t,
          by simp [execLoop, hv, h, ht], ?_, ?_⟩
        · simp [List.countP_cons, isSave, hs]
        · simp [List.countP_cons, isRestore, hr]
    | ActionStep ks lab =>
      by_cases hk : ks = []
      · exact ⟨t, by simp [execLoop, hk, ht], hs, hr⟩
      · refine ⟨ClipEvent.hotkey ks :: t, by simp [execLoop, hk, ht], ?_, ?_⟩
        · simp [List.countP_cons, isSave, hs]
        · simp [List.countP_cons, isRestore, hr]

/-- Skipping lemma: an empty `TextStep` contributes nothing to the loop
(when copies succeed, so that index shifts are irrelevant). -/
theorem execLoop_skip_empty_text (env : ClipEnv) (h : ∀ i, env.copyOk i = true)
    (post : List Step) :
    ∀ (pre : List Step) (i : Nat),
      execLoop env (pre ++ Step.TextStep "" :: post) i
        = execLoop env (pre ++ post) i := by
  intro pre
  induction pre with
  | nil =>
    intro i
    show execLoop env (Step.TextStep "" :: post) i = execLoop env post i
    simp [execLoop, execLoop_index_irrel env h post (i + 1) i]
  | cons s pre ih =>
    intro i
    cases s with
    | TextStep v =>
      by_cases hv : v = "" <;>
        simp [List.cons_append, execLoop, hv, h, ih (i + 1)]
    | ActionStep ks lab =>
      by_cases hk : ks = [] <;>
        simp [List.cons_append, execLoop, hk, ih (i + 1)]

/-- Skipping lemma: an `ActionStep` with no keys contributes nothing to
the loop. -/
theorem execLoop_skip_empty_action (env : ClipEnv)
    (h : ∀ i, env.copyOk i = true) (post : List Step) (lab : String) :
    ∀ (pre : List Step) (i : Nat),
      execLoop env (pre ++ Step.ActionStep [] lab :: post) i
        = execLoop env (pre ++ post) i := by
  intro pre
  induction pre with
  | nil =>
    intro i
    show execLoop env (Step.ActionStep [] lab :: post) i = execLoop env post i
    simp [execLoop, execLoop_index_irrel env h post (i + 1) i]
  | cons s pre ih =>
    intro i
    cases s with
    | TextStep v =>
      by_cases hv : v = "" <;>
        simp [List.cons_append, execLoop, hv, h, ih (i + 1)]
    | ActionStep ks lab' =>
      by_cases hk : ks = [] <;>
        simp [List.cons_append, execLoop, hk, ih (i + 1)]

/-! ## Claim theorems -/

/-- **C1** (counterexample).  The claim says *every* edit operation
leaves no two adjacent `TextStep`s, but `_on_add_text_clicked` appends
an empty `TextStep` unconditionally: applied to the builder's initial
state `[TextStep("")]` it produces two adjacent `TextStep`s. -/
theorem C1_counterexample :
    on_add_text_clicked [Step.TextStep ""]
        = [Step.TextStep "", Step.TextStep ""]
    ∧ noAdjText (on_add_text_clicked [Step.TextStep ""]) = false := by
  decide

/-- **C1** (amended).  Removing a step (in-range index) always restores
the invariant: no two adjacent `TextStep`s and nonempty.  Inserting a
captured `ActionStep` preserves both properties.  Adding a text block
keeps the sequence nonempty but may create two adjacent `TextStep`s. -/
theorem C1_edit_invariants (steps : List Step) (index idx : Nat)
    (ks : List String) (lab : String)
    (hidx : index < steps.length) (hna : noAdjText steps = true) :
    (noAdjText (on_remove_step steps index) = true
      ∧ on_remove_step steps index ≠ [])
    ∧ (noAdjText (on_action_captured steps idx (Step.ActionStep ks lab)) = true
      ∧ on_action_captured steps idx (Step.ActionStep ks lab) ≠ [])
    ∧ on_add_text_clicked steps ≠ [] := by
  refine ⟨on_remove_step_invariant steps index hidx,
    ⟨noAdjText_insert_action steps idx ks lab hna, ?_⟩, ?_⟩
  · simp [on_action_captured, list_insert]
  · simp [on_add_text_clicked]

/-- **C1** (witness for the amended theorem): a concrete two-step
sequence, removing index 0 and inserting an action at index 1. -/
theorem C1_edit_invariants_witness :
    (noAdjText (on_remove_step
        [Step.TextStep "a", Step.ActionStep ["enter"] "Enter"] 0) = true
      ∧ on_remove_step
        [Step.TextStep "a", Step.ActionStep ["enter"] "Enter"] 0 ≠ [])
    ∧ (noAdjText (on_action_captured
        [Step.TextStep "a", Step.ActionStep ["enter"] "Enter"] 1
        (Step.ActionStep ["ctrl", "a"] "Ctrl + A")) = true
      ∧ on_action_captured
        [Step.TextStep "a", Step.ActionStep ["enter"] "Enter"] 1
        (Step.ActionStep ["ctrl", "a"] "Ctrl + A") ≠ [])
    ∧ on_add_text_clicked
        [Step.TextStep "a", Step.ActionStep ["enter"] "Enter"] ≠ [] :=
  C1_edit_invariants [Step.TextStep "a", Step.ActionStep ["enter"] "Enter"]
    0 1 ["ctrl", "a"] "Ctrl + A" (by decide) (by decide)

/-- **C2** (counterexample).  The claim says a clipboard write failure
during one `TextStep` only loses that step's text and the remaining
steps still run, with no exception escaping.  In the code the per-step
`pyperclip.copy` is not wrapped in try/except: when it fails the
exception escapes `execute_macro` (result `none`) and the following
`ActionStep` is never executed. -/
theorem C2_counterexample :
    execute_steps ⟨true, "x", fun _ => false⟩
      [Step.TextStep "a", Step.ActionStep ["enter"] "Enter"] = none := by
  rfl

/-- **C2** (amended).  Only the *initial clipboard read* failure is
tolerated: when every per-step copy succeeds the engine completes for
every step sequence, and a failed initial read merely degrades the
saved clipboard to the empty string (the run is identical to one that
read `""`).  A failed per-step copy, by contrast, escapes (see the
counterexample). -/
theorem C2_clipboard_failure (env : ClipEnv) (steps : List Step)
    (h : ∀ i, env.copyOk i = true) :
    (∃ t, execute_steps env steps = some t)
    ∧ execute_steps ⟨false, env.clipContent, env.copyOk⟩ steps
        = execute_steps ⟨true, "", env.copyOk⟩ steps := by
  constructor
  · obtain ⟨t, ht, -, -⟩ := execLoop_ok env h steps 0
    refine ⟨ClipEvent.pasteRead :: t ++ [ClipEvent.scheduleRestore
      (if env.readOk then env.clipContent else "")], ?_⟩
    simp [execute_steps, ht]
  · unfold execute_steps
    rw [execLoop_congr ⟨false, env.clipContent, env.copyOk⟩
      ⟨true, "", env.copyOk⟩ rfl steps 0]
    simp

/-- **C2** (witness): a concrete run with a working clipboard, and the
read-failure degradation at a concrete environment. -/
theorem C2_clipboard_failure_witness :
    (∃ t, execute_steps ⟨true, "old", fun _ => true⟩
        [Step.TextStep "a", Step.ActionStep ["enter"] "Enter"] = some t)
    ∧ execute_steps ⟨false, "old", fun _ => true⟩
        [Step.TextStep "a", Step.ActionStep ["enter"] "Enter"]
      = execute_steps ⟨true, "", fun _ => true⟩
        [Step.TextStep "a", Step.ActionStep ["enter"] "Enter"] :=
  C2_clipboard_failure ⟨true, "old", fun _ => true⟩
    [Step.TextStep "a", Step.ActionStep ["enter"] "Enter"] (fun _ => rfl)

/-- **C3**.  At most one pending click-to-paste payload: arming a
second payload (text or macro) over any state replaces the first — the
state equals a freshly armed one, only the second payload is pending,
and the next click fires at most the second payload's injection (an
empty text payload is falsy in Python and fires nothing). -/
theorem C3_replace_semantics (st : WaitState) (p1 p2 : Payload) :
    arm (arm st p1) p2 = arm ⟨none, none⟩ p2
    ∧ armedPayload (arm (arm st p1) p2) = some p2
    ∧ (on_global_click (arm (arm st p1) p2)).2 = injectionOf p2 := by
  cases p2 with
  | textPayload t =>
    by_cases ht : t = "" <;>
      cases p1 <;>
        simp [arm, on_wait_and_type_clip, on_wait_and_run_steps,
          armedPayload, on_global_click, injectionOf, ht]
  | stepsPayload s =>
    cases p1 <;>
      simp [arm, on_wait_and_type_clip, on_wait_and_run_steps,
        armedPayload, on_global_click, injectionOf]

/-- **C4**.  The caret locator's fixed-order short-circuiting chain:
when method 1 misses and method 2 hits, `locate()` returns method 2's
position and methods 3 and 4 are never invoked; when all four methods
miss, it returns `None`. -/
theorem C4_fallback_chain (p q : CaretProbes) (pos : Int × Int)
    (h1 : p.m1 = none) (h2 : p.m2 = some pos)
    (hq1 : q.m1 = none) (hq2 : q.m2 = none)
    (hq3 : q.m3 = none) (hq4 : q.m4 = none) :
    ((get_caret_screen_pos p).1 = some pos
      ∧ (get_caret_screen_pos p).2 = [1, 2]
      ∧ 3 ∉ (get_caret_screen_pos p).2
      ∧ 4 ∉ (get_caret_screen_pos p).2)
    ∧ (get_caret_screen_pos q).1 = none := by
  constructor
  · simp [get_caret_screen_pos, h1, h2]
  · simp [get_caret_screen_pos, hq1, hq2, hq3, hq4]

/-- **C4** (witness): concrete probe configurations, with methods 3 and
4 able to return positions that must not be consulted. -/
theorem C4_fallback_chain_witness :
    ((get_caret_screen_pos ⟨none, some (10, 20), some (1, 1), some (2, 2)⟩).1
        = some (10, 20)
      ∧ (get_caret_screen_pos
          ⟨none, some (10, 20), some (1, 1), some (2, 2)⟩).2 = [1, 2]
      ∧ 3 ∉ (get_caret_screen_pos
          ⟨none, some (10, 20), some (1, 1), some (2, 2)⟩).2
      ∧ 4 ∉ (get_caret_screen_pos
          ⟨none, some (10, 20), some (1, 1), some (2, 2)⟩).2)
    ∧ (get_caret_screen_pos ⟨none, none, none, none⟩).1 = none :=
  C4_fallback_chain ⟨none, some (10, 20), some (1, 1), some (2, 2)⟩
    ⟨none, none, none, none⟩ (10, 20) rfl rfl rfl rfl rfl rfl

/-- **C5**.  Clipboard discipline of `execute_steps`: for every step
sequence (under a working clipboard), it saves the clipboard exactly
once, as the very first event, and schedules exactly one restoration of
the saved contents, as the very last event — however many `TextStep`s
the sequence contains. -/
theorem C5_clipboard_discipline (env : ClipEnv) (steps : List Step)
    (h : ∀ i, env.copyOk i = true) :
    ∃ t, execute_steps env steps = some t
      ∧ t.countP isSave = 1
      ∧ t.head? = some ClipEvent.pasteRead
      ∧ t.countP isRestore = 1
      ∧ t.getLast? = some (ClipEvent.scheduleRestore
          (if env.readOk then env.clipContent else "")) := by
  obtain ⟨u, hu, hs, hr⟩ := execLoop_ok env h steps 0
  refine ⟨ClipEvent.pasteRead :: u
      ++ [ClipEvent.scheduleRestore (if env.readOk then env.clipContent else "")],
    by simp [execute_steps, hu], ?_, rfl, ?_, ?_⟩
  · simp [List.countP_cons, List.countP_append, isSave, hs, isRestore]
  · simp [List.countP_cons, List.countP_append, isSave, hr, isRestore]
  · rw [show ClipEvent.pasteRead :: u
        ++ [ClipEvent.scheduleRestore (if env.readOk then env.clipContent else "")]
      = (ClipEvent.pasteRead :: u)
        ++ [ClipEvent.scheduleRestore (if env.readOk then env.clipContent else "")]
      from rfl]
    exact List.getLast?_concat _

/-- **C5** (witness): three `TextStep`s, one save, one restoration. -/
theorem C5_clipboard_discipline_witness :
    ∃ t, execute_steps ⟨true, "old", fun _ => true⟩
        [Step.TextStep "a", Step.TextStep "b", Step.TextStep "c"] = some t
      ∧ t.countP isSave = 1
      ∧ t.head? = some ClipEvent.pasteRead
      ∧ t.countP isRestore = 1
      ∧ t.getLast? = some (ClipEvent.scheduleRestore
          (if (true : Bool) then "old" else "")) :=
  C5_clipboard_discipline ⟨true, "old", fun _ => true⟩
    [Step.TextStep "a", Step.TextStep "b", Step.TextStep "c"] (fun _ => rfl)

/-- **C6** (counterexample).  The claim says a macro clip dispatches to
`execute_steps` whenever `is_macro` is true, but the code tests
`clip.is_macro and clip.steps`: a macro clip with an *empty* step list
takes the simple-text branch and calls `type_text` instead. -/
theorem C6_counterexample :
    (dispatch ⟨"x", true, []⟩ false ⟨none, none⟩).2 = [Injection.typeText "x"]
    ∧ (dispatch ⟨"x", true, []⟩ false ⟨none, none⟩).2
        ≠ [Injection.execSteps []] := by
  decide

/-- **C6** (amended).  With click-to-paste disabled, dispatch performs
exactly one immediate injection and leaves the wait state untouched:
`execute_steps` on the clip's steps when `is_macro` is true *and the
step list is nonempty*, otherwise one `type_text` with `clip.text`.
With click-to-paste enabled, it performs zero injections and arms the
corresponding payload. -/
theorem C6_dispatch (clip : Clip) (st : WaitState) :
    ((clip.isMacro && !clip.steps.isEmpty) = true →
        dispatch clip false st = (st, [Injection.execSteps clip.steps])
        ∧ dispatch clip true st
            = (arm st (Payload.stepsPayload clip.steps), []))
    ∧ ((clip.isMacro && !clip.steps.isEmpty) = false →
        dispatch clip false st = (st, [Injection.typeText clip.text])
        ∧ dispatch clip true st
            = (arm st (Payload.textPayload clip.text), [])) := by
  constructor <;> intro h <;>
    simp [dispatch, on_clip_clicked, handle_signal, h, arm,
      on_wait_and_type_clip, on_wait_and_run_steps]

/-- **C6** (witness): a simple clip injected immediately, and a macro
clip armed with zero injections. -/
theorem C6_dispatch_witness :
    dispatch ⟨"hi", false, []⟩ false ⟨none, none⟩
        = (⟨none, none⟩, [Injection.typeText "hi"])
    ∧ dispatch ⟨"m", true, [Step.TextStep "a"]⟩ true ⟨none, none⟩
        = (arm ⟨none, none⟩ (Payload.stepsPayload [Step.TextStep "a"]), []) :=
  ⟨((C6_dispatch ⟨"hi", false, []⟩ ⟨none, none⟩).2 (by decide)).1,
   ((C6_dispatch ⟨"m", true, [Step.TextStep "a"]⟩ ⟨none, none⟩).1
     (by decide)).2⟩

/-- **C7**.  Serialization round-trip: for every step (a `TextStep`
with any value, or an `ActionStep` with any key list — including
multiple modifiers — and any label),
`step_from_dict (step.to_dict) = step`. -/
theorem C7_step_roundtrip (step : Step) :
    step_from_dict step.to_dict = step := by
  cases step <;> rfl

/-- **C8** (counterexample).  The claim says an unknown discriminator
deserializes to an *empty* `TextStep` regardless of the record's other
fields, but `TextStep.from_dict` reads the record's `value` field:
a record with discriminator `"bogus"` and value `"hello"` deserializes
to `TextStep "hello"`, not `TextStep ""`. -/
theorem C8_counterexample :
    step_from_dict ⟨some "bogus", some "hello", none, none⟩
        = Step.TextStep "hello"
    ∧ Step.TextStep "hello" ≠ Step.TextStep "" := by
  decide

/-- **C8** (amended).  Every record whose discriminator is not
`"action"` (unknown or missing) deserializes as a `TextStep` carrying
the record's `value` field, defaulting to the empty string when that
field is absent. -/
theorem C8_unknown_discriminator (d : StepRecord)
    (h : d.type ≠ some "action") :
    step_from_dict d = Step.TextStep (d.value.getD "") := by
  unfold step_from_dict
  rw [if_neg h]
  rfl

/-- **C8** (witness): an unknown discriminator with no `value` field
does yield the empty `TextStep`. -/
theorem C8_unknown_discriminator_witness :
    step_from_dict ⟨some "bogus", none, some ["ctrl"], some "X"⟩
        = Step.TextStep "" :=
  C8_unknown_discriminator ⟨some "bogus", none, some ["ctrl"], some "X"⟩
    (by decide)

/-- **C9**.  `merge_adjacent_text` is idempotent: merging an already
merged sequence changes nothing, for every step sequence. -/
theorem C9_merge_idempotent (S : List Step) :
    merge_adjacent_text (merge_adjacent_text S) = merge_adjacent_text S :=
  merge_adjacent_text_of_noAdjText _ (noAdjText_merge_adjacent_text S)

/-- **C10**.  `execute_steps` silently skips a `TextStep` with empty
value and an `ActionStep` with an empty key list — no clipboard write
and no key synthesis for that step — and the run is identical to the
run without that step (all remaining steps execute in order), wherever
the empty step sits in the sequence. -/
theorem C10_skip_empty_steps (env : ClipEnv) (pre post : List Step)
    (lab : String) (h : ∀ i, env.copyOk i = true) :
    execute_steps env (pre ++ Step.TextStep "" :: post)
        = execute_steps env (pre ++ post)
    ∧ execute_steps env (pre ++ Step.ActionStep [] lab :: post)
        = execute_steps env (pre ++ post) := by
  unfold execute_steps
  rw [execLoop_skip_empty_text env h post pre 0,
    execLoop_skip_empty_action env h post lab pre 0]
  exact ⟨rfl, rfl⟩

/-- **C10** (witness): an empty text step and an empty action step
between two real steps change nothing. -/
theorem C10_skip_empty_steps_witness :
    execute_steps ⟨true, "old", fun _ => true⟩
        [Step.TextStep "a", Step.TextStep "",
          Step.ActionStep ["enter"] "Enter"]
      = execute_steps ⟨true, "old", fun _ => true⟩
        [Step.TextStep "a", Step.ActionStep ["enter"] "Enter"]
    ∧ execute_steps ⟨true, "old", fun _ => true⟩
        [Step.TextStep "a", Step.ActionStep [] "Nothing",
          Step.ActionStep ["enter"] "Enter"]
      = execute_steps ⟨true, "old", fun _ => true⟩
        [Step.TextStep "a", Step.ActionStep ["enter"] "Enter"] :=
  C10_skip_empty_steps ⟨true, "old", fun _ => true⟩ [Step.TextStep "a"]
    [Step.ActionStep ["enter"] "Enter"] "Nothing" (fun _ => rfl)

end ClipTray
